import Mathlib

/-!
Shallow embedding of the decision-mcp repository's decision/thinking session
core (src/src/tools/decision-maker.ts, src/src/tools/decision-analyzer.ts,
src/src/tools/sequential-thinking.ts) and proofs about the spec's claims.

Numbers that are JavaScript `number`s are modelled as exact rationals (`ℚ`);
`Math.sqrt` forces the confidence computation into `ℝ`.  `Date` values are
modelled as abstract natural-number timestamps threaded into the mutating
operations.  String template messages are modelled as tagged inductive values
carrying the data interpolated into the template.
-/

namespace DecisionMCP

/-- JavaScript `a || d` for an optional numeric parameter: `undefined` and the
falsy value `0` both fall back to the default. -/
def jsOrQ (a : Option ℚ) (d : ℚ) : ℚ :=
  match a with
  | none => d
  | some v => if v = 0 then d else v

/-- JavaScript `a || d` for an optional natural-number parameter. -/
def jsOrN (a : Option ℕ) (d : ℕ) : ℕ :=
  match a with
  | none => d
  | some v => if v = 0 then d else v

/-! ## Data model (src/src/types, as used by the tools) -/

/-- Session status (`'active' | 'paused' | 'completed' | 'archived'`). -/
inductive SessionStatus where
  | active
  | paused
  | completed
  | archived
  deriving DecidableEq, Repr

/-- A weighted decision criterion. -/
structure Criteria where
  id : String
  name : String
  descr : String
  weight : ℚ
  ctype : String
  deriving DecidableEq, Repr

/-- A candidate option of a decision session (`Option` in the source; renamed
to avoid clashing with Lean's `Option`). -/
structure DecisionOption where
  id : String
  name : String
  descr : String
  pros : List String
  cons : List String
  risks : List String
  deriving DecidableEq, Repr

/-- One per-criterion score inside a stored evaluation. -/
structure Score where
  criteriaId : String
  score : ℚ
  reasoning : String
  deriving DecidableEq, Repr

/-- A stored evaluation of one option. -/
structure Evaluation where
  optionId : String
  scores : List Score
  overallScore : ℚ
  weightedScore : ℚ
  timestamp : ℕ
  deriving DecidableEq, Repr

/-- A decision session record. -/
structure DecisionSession where
  id : String
  context : String
  criteria : List Criteria
  options : List DecisionOption
  evaluations : List Evaluation
  status : SessionStatus
  recommendation : Option String
  createdAt : ℕ
  updatedAt : ℕ
  deriving DecidableEq, Repr

/-- A caller-submitted `{score, reasoning}` entry of `evaluate_option`. -/
structure ScoreInput where
  score : ℚ
  reasoning : String
  deriving DecidableEq, Repr

/-! ## Evaluation & scoring (decision-maker.ts) -/

/-- `validateEvaluation` error tags: a count mismatch message plus one message
per out-of-range score (`Score ${index+1} must be between 0 and 10`). -/
inductive EvalError where
  | countMismatch (expected got : ℕ)
  | scoreOutOfRange (index : ℕ)
  deriving DecidableEq, Repr

/-- The `errors` array accumulated by `validateEvaluation` (decision-maker.ts):
a count-mismatch entry when the lengths differ, then one entry per score
outside `[0, 10]`.  (The reasoning checks only produce warnings, which the
caller ignores.) -/
def validateEvaluationErrors (scores : List ScoreInput) (criteria : List Criteria) :
    List EvalError :=
  (if scores.length ≠ criteria.length then
    [EvalError.countMismatch criteria.length scores.length] else [])
    ++ ((List.range scores.length).filterMap fun i =>
        match scores[i]? with
        | some sc => if sc.score < 0 ∨ 10 < sc.score then some (.scoreOutOfRange i) else none
        | none => none)

/-- `calculateWeightedScore` (decision-maker.ts:645-658): the `forEach` with the
`index < criteria.length` guard pairs each score positionally with a criterion,
clamping to the shorter array — i.e. a `zip`; returns 0 when the total weight
is not positive. -/
def calculateWeightedScore (scores : List ScoreInput) (criteria : List Criteria) : ℚ :=
  let pairs := scores.zip criteria
  let weightedSum := (pairs.map fun p => p.1.score * p.2.weight).sum
  let totalWeight := (pairs.map fun p => p.2.weight).sum
  if 0 < totalWeight then weightedSum / totalWeight else 0

/-- Error outcomes of `evaluateOption`. -/
inductive EvaluateErr where
  | optionNotFound
  | sessionInactive
  | validationFailed (errors : List EvalError)
  deriving DecidableEq, Repr

/-- `evaluateOption` (decision-maker.ts:260-339).  Checks, in source order:
option lookup, session active, score validation; then computes the overall
(unweighted mean) and weighted scores, rebuilds the score entries with the
positionally matched criterion ids (`session.criteria[index]?.id || ''`),
replaces any prior evaluation of the option and appends the new one.
(In JS an empty scores array would make `overallScore` NaN; under the claims'
hypotheses the array is nonempty, and `ℚ` division by zero yields 0.) -/
def evaluateOption (s : DecisionSession) (optionId : String)
    (scores : List ScoreInput) (now : ℕ) :
    DecisionSession × Except EvaluateErr Evaluation :=
  match s.options.find? (fun o => o.id == optionId) with
  | none => (s, .error .optionNotFound)
  | some _ =>
    if s.status ≠ .active then (s, .error .sessionInactive)
    else
      match validateEvaluationErrors scores s.criteria with
      | e :: es => (s, .error (.validationFailed (e :: es)))
      | [] =>
        let overallScore := (scores.map (·.score)).sum / scores.length
        let weightedScore := calculateWeightedScore scores s.criteria
        let evaluation : Evaluation :=
          { optionId := optionId
            scores := (List.range scores.length).filterMap fun i =>
              match scores[i]? with
              | some sc => some { criteriaId := ((s.criteria[i]?).map (·.id)).getD ""
                                  score := sc.score
                                  reasoning := sc.reasoning }
              | none => none
            overallScore := overallScore
            weightedScore := weightedScore
            timestamp := now }
        let s' := { s with
          evaluations := (s.evaluations.filter fun e => e.optionId ≠ optionId) ++ [evaluation]
          updatedAt := now }
        (s', .ok evaluation)

/-! ## Confidence (decision-maker.ts `calculateConfidence`) -/

/-- Arithmetic mean of a list of reals (`scores.reduce(...) / scores.length`). -/
noncomputable def meanR (l : List ℝ) : ℝ := l.sum / l.length

/-- Population variance (`scores.reduce((sum, s) => sum + (s - mean)^2, 0) / scores.length`). -/
noncomputable def varianceR (l : List ℝ) : ℝ :=
  ((l.map fun s => (s - meanR l) ^ 2).sum) / l.length

/-- Standard deviation (`Math.sqrt(variance)`). -/
noncomputable def stdDevR (l : List ℝ) : ℝ := Real.sqrt (varianceR l)

/-- Insert into a descending-sorted list, keeping it descending. -/
def insertDesc (a : ℚ) : List ℚ → List ℚ
  | [] => [a]
  | b :: l => if b ≤ a then a :: b :: l else b :: insertDesc a l

/-- Numeric descending sort, modelling `scores.sort((a, b) => b - a)`. -/
def sortDesc : List ℚ → List ℚ
  | [] => []
  | a :: l => insertDesc a (sortDesc l)

/-- `calculateConfidence` (decision-maker.ts:660-678).  Returns 0.5 for fewer
than 2 evaluations; otherwise averages a consistency component
`max(0, 1 - sd/5)` with a separation component `(top - second)/10` and clamps
to at most 1.  `sortedScores[1] || topScore` is JavaScript: a second-best
score of exactly 0 is falsy and falls back to the top score. -/
noncomputable def calculateConfidence (evals : List Evaluation) : ℝ :=
  if evals.length < 2 then 0.5
  else
    let scoresQ : List ℚ := evals.map (·.weightedScore)
    let scoresR : List ℝ := scoresQ.map (Rat.cast : ℚ → ℝ)
    let consistency : ℝ := max 0 (1 - stdDevR scoresR / 5)
    let sorted := sortDesc scoresQ
    let topScore : ℚ := sorted.headD 0
    let s1 : ℚ := (sorted[1]?).getD topScore
    let secondScore : ℚ := if s1 = 0 then topScore else s1
    let separation : ℝ := ((topScore - secondScore : ℚ) : ℝ) / 10
    min 1 ((consistency + separation) / 2)

/-! ## Analysis and recommendation (decision-maker.ts) -/

/-- The fields of `DecisionAnalysis` that the verified operations consume
(`keyFactors`/`risks`/`alternatives`/`nextSteps` are presentation strings). -/
structure DecisionAnalysis where
  topOption : String
  confidence : ℝ

/-- Error outcomes of `analyzeDecision`. -/
inductive AnalyzeErr where
  | noEvaluations
  | topOptionNotFound
  deriving DecidableEq, Repr

/-- The `reduce` selecting the top evaluation (decision-maker.ts:367-369):
`current.weightedScore > prev.weightedScore ? current : prev`, starting from
the first evaluation, so an earlier evaluation wins every tie. -/
def topEvaluation (e : Evaluation) (rest : List Evaluation) : Evaluation :=
  rest.foldl (fun prev current =>
    if prev.weightedScore < current.weightedScore then current else prev) e

/-- `analyzeDecision` (decision-maker.ts:344-421), restricted to the analysis
fields the claims are about.  It reads the session but never mutates it and
never inspects `session.status`. -/
noncomputable def analyzeDecision (s : DecisionSession) :
    Except AnalyzeErr DecisionAnalysis :=
  match s.evaluations with
  | [] => .error .noEvaluations
  | e :: rest =>
    let top := topEvaluation e rest
    match s.options.find? (fun o => o.id == top.optionId) with
    | none => .error .topOptionNotFound
    | some topOption =>
      .ok { topOption := topOption.name
            confidence := calculateConfidence s.evaluations }

/-- The fields of a `Recommendation` the claims are about (the remaining
fields are templated prose derived from the same data). -/
structure Recommendation where
  recommendedOption : String
  confidence : ℝ

/-- Error outcomes of `makeRecommendation`. -/
inductive RecommendErr where
  | analysisFailed
  | topOptionNotFound
  | confidenceTooLow
  deriving DecidableEq, Repr

open Classical in
/-- `makeRecommendation` (decision-maker.ts:426-503).  Re-runs the analysis,
resolves the top option by name, gates on
`analysis.confidence < (params.minConfidence || 0.3)` (so an explicit 0 falls
back to the 0.3 default), and only on success marks the session completed,
stores the recommended option's name and bumps `updatedAt`.  It never checks
`session.status`. -/
noncomputable def makeRecommendation (s : DecisionSession)
    (minConfidence : Option ℚ) (now : ℕ) :
    DecisionSession × Except RecommendErr Recommendation :=
  match analyzeDecision s with
  | .error _ => (s, .error .analysisFailed)
  | .ok analysis =>
    match s.options.find? (fun o => o.name == analysis.topOption) with
    | none => (s, .error .topOptionNotFound)
    | some topOption =>
      if analysis.confidence < ((jsOrQ minConfidence (3/10) : ℚ) : ℝ) then
        (s, .error .confidenceTooLow)
      else
        ({ s with
            status := .completed
            recommendation := some topOption.name
            updatedAt := now },
         .ok { recommendedOption := topOption.name
               confidence := analysis.confidence })

/-! ## Logic validation (decision-analyzer.ts) -/

/-- Error messages accumulated by `validateLogic`, as tagged values carrying
the data interpolated into each template string. -/
inductive LogicError where
  | tooFewCriteria
  | duplicateCriteria (names : List String)
  | optionNotEvaluated (name : String)
  | scoreCountMismatch (optionId : String) (got expected : ℕ)
  | invalidScore (score : ℚ) (criteriaId : String)
  | tooFewOptions
  deriving DecidableEq, Repr

/-- Warning messages accumulated by `validateLogic`.  `weightSum total` stands
for `"Criteria weights sum to ${total.toFixed(2)}, not 1.0"` — the only
warning whose text mentions "not 1.0". -/
inductive LogicWarning where
  | weightSum (total : ℚ)
  | lacksReasoning (criteriaId : String)
  | noPros (name : String)
  | noCons (name : String)
  deriving DecidableEq, Repr

/-- Suggestions accumulated by `validateLogic`. -/
inductive LogicSuggestion where
  | lowAverage
  | highAverage
  deriving DecidableEq, Repr

/-- `validateCriteriaConsistency` (decision-analyzer.ts:451-469): one weight-sum
warning when `|Σweights - 1| > 0.1`; errors for fewer than 2 criteria and for
duplicate (case-insensitive) names.  `duplicateNames` keeps every occurrence
whose first index differs from its own index, i.e. all non-first occurrences. -/
def validateCriteriaConsistency (s : DecisionSession) :
    List LogicError × List LogicWarning :=
  let totalWeight := (s.criteria.map (·.weight)).sum
  let warnings : List LogicWarning :=
    if |totalWeight - 1| > 1/10 then [.weightSum totalWeight] else []
  let names := s.criteria.map fun c => c.name.toLower
  let duplicateNames := (names.enum.filter fun p => names.indexOf p.2 ≠ p.1).map (·.2)
  let errors : List LogicError :=
    (if s.criteria.length < 2 then [.tooFewCriteria] else [])
      ++ (if duplicateNames ≠ [] then [.duplicateCriteria duplicateNames] else [])
  (errors, warnings)

/-- `validateEvaluationCompleteness` (decision-analyzer.ts:471-486): an error
per option without an evaluation (the source iterates the set of option ids;
session option ids are unique, so iterating the options directly is the same),
then an error per evaluation whose score count differs from the criteria
count. -/
def validateEvaluationCompleteness (s : DecisionSession) : List LogicError :=
  ((s.options.filter fun o => ¬ (s.evaluations.map (·.optionId)).contains o.id).map
      fun o => LogicError.optionNotEvaluated o.name)
    ++ ((s.evaluations.filter fun e => e.scores.length ≠ s.criteria.length).map
      fun e => LogicError.scoreCountMismatch e.optionId e.scores.length s.criteria.length)

/-- `validateScoreConsistency` (decision-analyzer.ts:488-510): per-score range
errors and lacking-reasoning warnings (a missing reasoning is also a trimmed
length below 10), plus an average-score suggestion.  In JS an empty score set
makes the average NaN, which triggers neither comparison; hence the emptiness
guard. -/
def validateScoreConsistency (s : DecisionSession) :
    List LogicError × List LogicWarning × List LogicSuggestion :=
  let errors := s.evaluations.flatMap fun e => e.scores.filterMap fun sc =>
    if sc.score < 0 ∨ 10 < sc.score then some (.invalidScore sc.score sc.criteriaId) else none
  let warnings := s.evaluations.flatMap fun e => e.scores.filterMap fun sc =>
    if sc.reasoning.trim.length < 10 then some (.lacksReasoning sc.criteriaId) else none
  let allScores := s.evaluations.flatMap fun e => e.scores.map (·.score)
  let avgScore := allScores.sum / allScores.length
  let suggestions : List LogicSuggestion :=
    if allScores = [] then []
    else if avgScore < 3 then [.lowAverage]
    else if avgScore > 8 then [.highAverage]
    else []
  (errors, warnings, suggestions)

/-- `validateOptionCompleteness` (decision-analyzer.ts:512-526): an error when
fewer than 2 options exist, and no-pros/no-cons warnings per option. -/
def validateOptionCompleteness (s : DecisionSession) :
    List LogicError × List LogicWarning :=
  let errors : List LogicError := if s.options.length < 2 then [.tooFewOptions] else []
  let warnings := s.options.flatMap fun o =>
    (if o.pros = [] then [LogicWarning.noPros o.name] else [])
      ++ (if o.cons = [] then [LogicWarning.noCons o.name] else [])
  (errors, warnings)

/-- `calculateLogicConsistency` (decision-analyzer.ts:528-536): start from 1.0,
subtract 0.2 per error and 0.05 per warning, floor at 0. -/
def calculateLogicConsistency (errors : List LogicError) (warnings : List LogicWarning) : ℚ :=
  max 0 (1 - errors.length * (1/5) - warnings.length * (1/20))

/-- The `LogicValidation` result record. -/
structure LogicValidation where
  isValid : Bool
  errors : List LogicError
  warnings : List LogicWarning
  suggestions : List LogicSuggestion
  consistency : ℚ
  deriving DecidableEq, Repr

/-- `validateLogic` (decision-analyzer.ts:67-127): runs the four validators in
order, accumulating their errors and warnings into shared arrays, then derives
`isValid` and `consistency`. -/
def validateLogic (s : DecisionSession) : LogicValidation :=
  let cc := validateCriteriaConsistency s
  let ec := validateEvaluationCompleteness s
  let sc := validateScoreConsistency s
  let oc := validateOptionCompleteness s
  let errors := cc.1 ++ ec ++ sc.1 ++ oc.1
  let warnings := cc.2 ++ sc.2.1 ++ oc.2
  { isValid := errors.isEmpty
    errors := errors
    warnings := warnings
    suggestions := sc.2.2
    consistency := calculateLogicConsistency errors warnings }

/-! ## Sequential thinking (sequential-thinking.ts, both implementations) -/

/-- Error outcomes of the thinking-session operations. -/
inductive ThinkErr where
  | maxThoughtsReached
  | sessionInactive
  deriving DecidableEq, Repr

/-- A thought of the first (untyped, cap-enforcing) implementation. -/
structure ThoughtV1 where
  content : String
  parentId : Option String
  branchId : Option String
  depth : ℕ
  createdAt : ℕ
  deriving DecidableEq, Repr

/-- A thinking session of the first implementation
(sequential-thinking.ts:11-39): stores `maxThoughts: params.maxThoughts || 50`. -/
structure ThinkingSessionV1 where
  problem : String
  context : String
  thoughts : List ThoughtV1
  maxThoughts : ℕ
  status : SessionStatus
  createdAt : ℕ
  updatedAt : ℕ
  deriving DecidableEq, Repr

/-- `startThinking` of the first implementation. -/
def startThinkingV1 (problem context : String) (maxThoughts : Option ℕ) (now : ℕ) :
    ThinkingSessionV1 :=
  { problem := problem
    context := context
    thoughts := []
    maxThoughts := jsOrN maxThoughts 50
    status := .active
    createdAt := now
    updatedAt := now }

/-- `addThought` of the first implementation (sequential-thinking.ts:41-77):
rejects when `session.thoughts.length >= session.maxThoughts`, otherwise
appends. -/
def addThoughtV1 (s : ThinkingSessionV1) (thought : String)
    (parentId branchId : Option String) (now : ℕ) :
    ThinkingSessionV1 × Except ThinkErr ThoughtV1 :=
  if s.maxThoughts ≤ s.thoughts.length then (s, .error .maxThoughtsReached)
  else
    let t : ThoughtV1 :=
      { content := thought, parentId := parentId, branchId := branchId
        depth := 0, createdAt := now }
    ({ s with thoughts := s.thoughts ++ [t], updatedAt := now }, .ok t)

/-- A thought of the second (typed) implementation. -/
structure Thought where
  content : String
  timestamp : ℕ
  parentId : Option String
  branchId : Option String
  thoughtNumber : ℕ
  deriving DecidableEq, Repr

/-- A `ThinkingSession` of the second (typed) implementation
(sequential-thinking.ts:264-293): note it has no `maxThoughts` field. -/
structure ThinkingSession where
  problem : String
  thoughts : List Thought
  branches : List String
  status : SessionStatus
  conclusion : Option String
  createdAt : ℕ
  updatedAt : ℕ
  deriving DecidableEq, Repr

/-- `startThinking` of the second implementation
(sequential-thinking.ts:272-314): validates the parameters, creates a session
that stores no thought cap, and merely echoes `params.maxThoughts || 50` in
the response metadata (the second component). -/
def startThinking (problem : String) (maxThoughts : Option ℕ) (now : ℕ) :
    Except (List String) (ThinkingSession × ℕ) :=
  -- `problem.trim().length === 0` holds exactly when every character is whitespace
  if problem.toList.all (·.isWhitespace) then .error ["Problem description is required"]
  else if (match maxThoughts with
           | some m => m ≠ 0 && (m < 1 || 1000 < m)
           | none => false) then .error ["Max thoughts must be between 1 and 1000"]
  else .ok
    ({ problem := problem, thoughts := [], branches := [], status := .active
       conclusion := none, createdAt := now, updatedAt := now },
     jsOrN maxThoughts 50)

/-- `addThought` of the second implementation (sequential-thinking.ts:319-370):
checks only that the session is active, then appends — there is no thought-cap
check. -/
def addThought (s : ThinkingSession) (thought : String)
    (parentId branchId : Option String) (now : ℕ) :
    ThinkingSession × Except ThinkErr Thought :=
  if s.status ≠ .active then (s, .error .sessionInactive)
  else
    let t : Thought :=
      { content := thought, timestamp := now, parentId := parentId
        branchId := branchId, thoughtNumber := s.thoughts.length + 1 }
    ({ s with thoughts := s.thoughts ++ [t], updatedAt := now }, .ok t)

/-! ## Helper lemmas -/

/-- Under the validation hypotheses of a successful `evaluate_option` call the
accumulated `validateEvaluation` error array is empty. -/
lemma validateEvaluationErrors_eq_nil (scores : List ScoreInput) (criteria : List Criteria)
    (hlen : scores.length = criteria.length)
    (hrange : ∀ sc ∈ scores, 0 ≤ sc.score ∧ sc.score ≤ 10) :
    validateEvaluationErrors scores criteria = [] := by
  unfold validateEvaluationErrors
  rw [if_neg (by simp [hlen])]
  simp only [List.nil_append]
  rw [List.filterMap_eq_nil_iff]
  intro i hi
  rw [List.mem_range] at hi
  rw [List.getElem?_eq_getElem hi]
  have hsc := hrange scores[i] (List.getElem_mem hi)
  simp only
  rw [if_neg (by push_neg; exact ⟨hsc.1, hsc.2⟩)]

/-- With positionally matched arrays of equal length, the zip-clamped total
weight of `calculateWeightedScore` is the sum of all criteria weights. -/
lemma zip_totalWeight_eq (scores : List ScoreInput) (criteria : List Criteria)
    (hlen : scores.length = criteria.length) :
    ((scores.zip criteria).map fun p => p.2.weight).sum
      = (criteria.map (·.weight)).sum := by
  have h1 : (scores.zip criteria).map (fun p => p.2.weight)
      = ((scores.zip criteria).map Prod.snd).map (·.weight) := by
    rw [List.map_map]; rfl
  rw [h1, List.map_snd_zip _ _ (le_of_eq hlen.symm)]

/-- `calculateWeightedScore` matches the spec's formula when the arrays are
positionally aligned with equal lengths and the weights have a positive sum. -/
lemma calculateWeightedScore_eq (scores : List ScoreInput) (criteria : List Criteria)
    (hlen : scores.length = criteria.length)
    (hw : 0 < (criteria.map (·.weight)).sum) :
    calculateWeightedScore scores criteria
      = ((scores.zip criteria).map fun p => p.1.score * p.2.weight).sum
          / (criteria.map (·.weight)).sum := by
  unfold calculateWeightedScore
  simp only
  rw [zip_totalWeight_eq scores criteria hlen, if_pos hw]

/-- The success path of `evaluateOption` under the hypotheses shared by the
claims about it. -/
lemma evaluateOption_success (s : DecisionSession) (optionId : String)
    (scores : List ScoreInput) (now : ℕ) (o : DecisionOption)
    (hfind : s.options.find? (fun o' => o'.id == optionId) = some o)
    (hactive : s.status = .active)
    (hlen : scores.length = s.criteria.length)
    (hrange : ∀ sc ∈ scores, 0 ≤ sc.score ∧ sc.score ≤ 10) :
    evaluateOption s optionId scores now =
      ({ s with
          evaluations := (s.evaluations.filter fun e => e.optionId ≠ optionId)
            ++ [{ optionId := optionId
                  scores := (List.range scores.length).filterMap fun i =>
                    match scores[i]? with
                    | some sc => some { criteriaId := ((s.criteria[i]?).map (·.id)).getD ""
                                        score := sc.score
                                        reasoning := sc.reasoning }
                    | none => none
                  overallScore := (scores.map (·.score)).sum / scores.length
                  weightedScore := calculateWeightedScore scores s.criteria
                  timestamp := now }]
          updatedAt := now },
       .ok { optionId := optionId
             scores := (List.range scores.length).filterMap fun i =>
               match scores[i]? with
               | some sc => some { criteriaId := ((s.criteria[i]?).map (·.id)).getD ""
                                   score := sc.score
                                   reasoning := sc.reasoning }
               | none => none
             overallScore := (scores.map (·.score)).sum / scores.length
             weightedScore := calculateWeightedScore scores s.criteria
             timestamp := now }) := by
  unfold evaluateOption
  rw [hfind]
  simp only [hactive, ne_eq, not_true_eq_false, if_false,
    validateEvaluationErrors_eq_nil scores s.criteria hlen hrange]

/-! ## Claim C1 -/

/-- C1: when the submitted scores array has the same length as the session's
criteria list (and passes range validation, the session is active and the
option exists) and the criteria weights have a positive sum, `evaluate_option`
stores an evaluation whose `weightedScore` is `Σ(scoreᵢ·weightᵢ)/Σ(weightᵢ)`
with scores matched positionally to criteria, and whose `overallScore` is the
unweighted arithmetic mean of the raw scores. -/
theorem C1_weighted_and_overall_score (s : DecisionSession) (optionId : String)
    (scores : List ScoreInput) (now : ℕ) (o : DecisionOption)
    (hfind : s.options.find? (fun o' => o'.id == optionId) = some o)
    (hactive : s.status = .active)
    (hlen : scores.length = s.criteria.length)
    (hrange : ∀ sc ∈ scores, 0 ≤ sc.score ∧ sc.score ≤ 10)
    (hw : 0 < (s.criteria.map (·.weight)).sum) :
    ∃ ev : Evaluation,
      (evaluateOption s optionId scores now).2 = .ok ev ∧
      ev ∈ (evaluateOption s optionId scores now).1.evaluations ∧
      ev.weightedScore
        = ((scores.zip s.criteria).map fun p => p.1.score * p.2.weight).sum
            / (s.criteria.map (·.weight)).sum ∧
      ev.overallScore = (scores.map (·.score)).sum / scores.length := by
  rw [evaluateOption_success s optionId scores now o hfind hactive hlen hrange]
  exact ⟨_, rfl, by simp, calculateWeightedScore_eq scores s.criteria hlen hw, rfl⟩

/-- Example criteria and session used by the claim witnesses: weights
`[0.5, 0.3, 0.2]` on criteria `c1`–`c3`, two options `A` and `B`. -/
def exCriteria : List Criteria :=
  [{ id := "c1", name := "Cost", descr := "cost", weight := 1/2, ctype := "cost" },
   { id := "c2", name := "Features", descr := "features", weight := 3/10, ctype := "benefit" },
   { id := "c3", name := "Risk", descr := "risk", weight := 1/5, ctype := "risk" }]

/-- Example option A. -/
def exOptA : DecisionOption :=
  { id := "A", name := "Option A", descr := "first candidate",
    pros := ["fast"], cons := ["pricey"], risks := [] }

/-- Example option B. -/
def exOptB : DecisionOption :=
  { id := "B", name := "Option B", descr := "second candidate",
    pros := ["cheap"], cons := ["slow"], risks := [] }

/-- Example active session with the three weighted criteria. -/
def exSession : DecisionSession :=
  { id := "s1", context := "Choose CRM vendor", criteria := exCriteria,
    options := [exOptA, exOptB], evaluations := [], status := .active,
    recommendation := none, createdAt := 0, updatedAt := 0 }

/-- Example score inputs `[8, 6, 4]`. -/
def exScores : List ScoreInput :=
  [{ score := 8, reasoning := "strong cost profile" },
   { score := 6, reasoning := "adequate feature set" },
   { score := 4, reasoning := "notable integration risk" }]

/-- C1 witness: on the spec's example — weights `[0.5, 0.3, 0.2]`, scores
`[8, 6, 4]` — the stored weighted score is `6.6 = 33/5` and the overall score
is the plain mean `6`. -/
theorem C1_weighted_and_overall_score_witness :
    ∃ ev : Evaluation,
      (evaluateOption exSession "A" exScores 1).2 = .ok ev ∧
      ev ∈ (evaluateOption exSession "A" exScores 1).1.evaluations ∧
      ev.weightedScore = 33/5 ∧ ev.overallScore = 6 := by
  obtain ⟨ev, h1, h2, h3, h4⟩ :=
    C1_weighted_and_overall_score exSession "A" exScores 1 exOptA
      (by decide) (by decide) (by decide)
      (by intro sc hsc
          simp only [exScores, List.mem_cons, List.not_mem_nil, or_false] at hsc
          rcases hsc with rfl | rfl | rfl <;> norm_num)
      (by simp [exSession, exCriteria]; norm_num)
  refine ⟨ev, h1, h2, ?_, ?_⟩
  · rw [h3]
    simp [exScores, exSession, exCriteria]
    norm_num
  · rw [h4]
    simp [exScores]
    norm_num

/-! ## Claim C5 -/

/-- C5: a successful `evaluate_option` call leaves exactly one evaluation for
the evaluated option — the newly computed one — leaves the evaluations of all
other options untouched, and preserves the invariant that option ids are
pairwise distinct across the evaluations list; so re-evaluating an option
replaces its prior evaluation and the second call's values win. -/
theorem C5_one_evaluation_per_option (s : DecisionSession) (optionId : String)
    (scores : List ScoreInput) (now : ℕ) (o : DecisionOption)
    (hfind : s.options.find? (fun o' => o'.id == optionId) = some o)
    (hactive : s.status = .active)
    (hlen : scores.length = s.criteria.length)
    (hrange : ∀ sc ∈ scores, 0 ≤ sc.score ∧ sc.score ≤ 10) :
    ∃ ev : Evaluation,
      (evaluateOption s optionId scores now).2 = .ok ev ∧
      (evaluateOption s optionId scores now).1.evaluations.filter
          (fun e => e.optionId = optionId) = [ev] ∧
      (evaluateOption s optionId scores now).1.evaluations.filter
          (fun e => e.optionId ≠ optionId)
        = s.evaluations.filter (fun e => e.optionId ≠ optionId) ∧
      (s.evaluations.Pairwise (fun a b => a.optionId ≠ b.optionId) →
        (evaluateOption s optionId scores now).1.evaluations.Pairwise
          (fun a b => a.optionId ≠ b.optionId)) := by
  rw [evaluateOption_success s optionId scores now o hfind hactive hlen hrange]
  refine ⟨_, rfl, ?_, ?_, ?_⟩
  · rw [List.filter_append]
    have h1 : (s.evaluations.filter fun e => e.optionId ≠ optionId).filter
        (fun e => e.optionId = optionId) = [] := by
      rw [List.filter_eq_nil_iff]
      intro e he
      have := (List.mem_filter.mp he).2
      simp only [decide_eq_true_eq] at this ⊢
      exact this
    rw [h1]
    simp
  · rw [List.filter_append]
    have h2 : List.filter (fun e => decide (e.optionId ≠ optionId))
        [({ optionId := optionId
            scores := (List.range scores.length).filterMap fun i =>
              match scores[i]? with
              | some sc => some { criteriaId := ((s.criteria[i]?).map (·.id)).getD ""
                                  score := sc.score
                                  reasoning := sc.reasoning }
              | none => none
            overallScore := (scores.map (·.score)).sum / scores.length
            weightedScore := calculateWeightedScore scores s.criteria
            timestamp := now } : Evaluation)] = [] := by
      simp
    rw [h2, List.append_nil]
    have h3 : ∀ (l : List Evaluation),
        (l.filter fun e => e.optionId ≠ optionId).filter (fun e => e.optionId ≠ optionId)
          = l.filter fun e => e.optionId ≠ optionId := by
      intro l
      rw [List.filter_eq_self]
      intro e he
      exact (List.mem_filter.mp he).2
    exact h3 s.evaluations
  · intro hpw
    rw [List.pairwise_append]
    refine ⟨hpw.filter _, List.pairwise_singleton _ _, ?_⟩
    intro x hx y hy
    have hxne := (List.mem_filter.mp hx).2
    simp only [decide_eq_true_eq] at hxne
    rcases List.mem_singleton.mp hy with rfl
    exact hxne

/-- The evaluation produced by the first example call. -/
def exEval1 : Evaluation :=
  { optionId := "A"
    scores := [{ criteriaId := "c1", score := 8, reasoning := "strong cost profile" },
               { criteriaId := "c2", score := 6, reasoning := "adequate feature set" },
               { criteriaId := "c3", score := 4, reasoning := "notable integration risk" }]
    overallScore := 6, weightedScore := 33/5, timestamp := 1 }

/-- The example session after the first evaluation of option "A". -/
def exSession1 : DecisionSession :=
  { exSession with evaluations := [exEval1], updatedAt := 1 }

/-- The revised score inputs of the second example call. -/
def exScores2 : List ScoreInput :=
  [{ score := 9, reasoning := "revised" },
   { score := 7, reasoning := "revised" },
   { score := 5, reasoning := "revised" }]

/-- The first example call produces `exSession1`. -/
lemma evaluateOption_exSession_eq :
    (evaluateOption exSession "A" exScores 1).1 = exSession1 := by
  rw [evaluateOption_success exSession "A" exScores 1 exOptA
    (by decide) (by decide) (by decide)
    (by intro sc hsc
        simp only [exScores, List.mem_cons, List.not_mem_nil, or_false] at hsc
        rcases hsc with rfl | rfl | rfl <;> norm_num)]
  simp only [exSession1, exEval1, exSession, exCriteria, exScores]
  norm_num [calculateWeightedScore, List.range_succ, List.filter]
  rfl

/-- C5 witness: evaluating option "A" twice in the example session leaves a
single evaluation for "A", carrying the second call's weighted score
`(9·0.5 + 7·0.3 + 5·0.2)/1 = 7.6 = 38/5`. -/
theorem C5_one_evaluation_per_option_witness :
    ∃ ev : Evaluation,
      (evaluateOption ((evaluateOption exSession "A" exScores 1).1) "A"
          exScores2 2).2 = .ok ev ∧
      (evaluateOption ((evaluateOption exSession "A" exScores 1).1) "A"
          exScores2 2).1.evaluations.filter
        (fun e => e.optionId = "A") = [ev] ∧
      ev.weightedScore = 38/5 := by
  rw [evaluateOption_exSession_eq]
  have hrange2 : ∀ sc ∈ exScores2, 0 ≤ sc.score ∧ sc.score ≤ 10 := by
    intro sc hsc
    simp only [exScores2, List.mem_cons, List.not_mem_nil, or_false] at hsc
    rcases hsc with rfl | rfl | rfl <;> norm_num
  obtain ⟨ev, h1, h2, _, _⟩ :=
    C5_one_evaluation_per_option exSession1 "A" exScores2 2 exOptA
      (by decide) (by decide) (by decide) hrange2
  refine ⟨ev, h1, h2, ?_⟩
  rw [evaluateOption_success exSession1 "A" exScores2 2 exOptA
    (by decide) (by decide) (by decide) hrange2] at h1
  simp only at h1
  have hev := Except.ok.inj h1
  rw [← hev]
  simp only [exSession1, exSession, exCriteria, exScores2]
  norm_num [calculateWeightedScore]

/-! ## Claim C2 -/

/-- The problem text used in the C2 scenario. -/
def c2Problem : String := "How can we improve customer satisfaction?"

/-- The thinking session created by the typed `startThinking` for the C2
scenario (it stores no thought cap). -/
def c2s0 : ThinkingSession :=
  { problem := c2Problem, thoughts := [], branches := [], status := .active
    conclusion := none, createdAt := 0, updatedAt := 0 }

/-- The C2 session after two thoughts were added. -/
def c2s2 : ThinkingSession :=
  (addThought (addThought c2s0 "first thought" none none 1).1 "second thought" none none 2).1

/-- The first implementation's session for the same scenario, after two
thoughts. -/
def c2v1s2 : ThinkingSessionV1 :=
  (addThoughtV1 (addThoughtV1 (startThinkingV1 c2Problem "" (some 2) 0)
    "first thought" none none 1).1 "second thought" none none 2).1

/-- C2 (bug exhibit): a session started through the typed (served)
implementation with `maxThoughts = 2` that already holds 2 thoughts accepts a
third thought — `addThought` returns success and the thoughts list grows to 3,
because this implementation never checks a cap.  The older first
implementation of the same tool, run on the same scenario, rejects the third
thought and leaves its session unchanged, which is the documented behavior. -/
theorem C2_thought_cap_not_enforced :
    startThinking c2Problem (some 2) 0 = .ok (c2s0, 2) ∧
    c2s2.thoughts.length = 2 ∧ c2s2.status = .active ∧
    (addThought c2s2 "third thought" none none 3).2
      = .ok { content := "third thought", timestamp := 3, parentId := none
              branchId := none, thoughtNumber := 3 } ∧
    (addThought c2s2 "third thought" none none 3).1.thoughts.length = 3 ∧
    c2v1s2.maxThoughts = 2 ∧ c2v1s2.thoughts.length = 2 ∧
    (addThoughtV1 c2v1s2 "third thought" none none 3).2 = .error .maxThoughtsReached ∧
    (addThoughtV1 c2v1s2 "third thought" none none 3).1 = c2v1s2 :=
  ⟨rfl, rfl, rfl, rfl, rfl, rfl, rfl, rfl, rfl⟩

/-! ## Claim C7 -/

/-- Recognizer for the weight-sum warning, the only `validate_logic` warning
whose message mentions "not 1.0". -/
def isWeightSumWarning : LogicWarning → Bool
  | .weightSum _ => true
  | _ => false

/-- C7: `validate_logic` emits a weight-sum ("not 1.0") warning exactly once
if the criteria weights' sum differs from 1.0 by more than 0.1, and never
otherwise; in particular weights summing to 0.8 produce exactly one such
warning and weights summing to exactly 1.0 produce zero. -/
theorem C7_weight_sum_warning (s : DecisionSession) :
    (validateLogic s).warnings.countP isWeightSumWarning
      = if |(s.criteria.map (·.weight)).sum - 1| > 1/10 then 1 else 0 := by
  have hsc : ((validateScoreConsistency s).2.1).countP isWeightSumWarning = 0 := by
    rw [List.countP_eq_zero]
    intro w hw
    simp only [validateScoreConsistency] at hw
    obtain ⟨e, _, hw2⟩ := List.mem_flatMap.mp hw
    obtain ⟨sc, _, hf⟩ := List.mem_filterMap.mp hw2
    split at hf
    · cases hf; simp [isWeightSumWarning]
    · cases hf
  have hoc : ((validateOptionCompleteness s).2).countP isWeightSumWarning = 0 := by
    rw [List.countP_eq_zero]
    intro w hw
    simp only [validateOptionCompleteness] at hw
    obtain ⟨o, _, hw2⟩ := List.mem_flatMap.mp hw
    rcases List.mem_append.mp hw2 with hw3 | hw3 <;> split at hw3 <;>
      simp only [List.mem_singleton, List.not_mem_nil] at hw3
    · subst hw3; simp [isWeightSumWarning]
    · subst hw3; simp [isWeightSumWarning]
  have hwarn : (validateLogic s).warnings
      = (validateCriteriaConsistency s).2 ++ (validateScoreConsistency s).2.1
          ++ (validateOptionCompleteness s).2 := by
    simp [validateLogic]
  rw [hwarn, List.countP_append, List.countP_append, hsc, hoc]
  simp only [validateCriteriaConsistency]
  by_cases h : |(s.criteria.map (·.weight)).sum - 1| > 1/10
  · rw [if_pos h, if_pos h]
    simp [isWeightSumWarning, List.countP_cons]
  · rw [if_neg h, if_neg h]
    simp

/-! ## Claim C8 -/

/-- C8: the `consistency` returned by `validate_logic` equals
`max(0, 1 − 0.2·#errors − 0.05·#warnings)` over the errors and warnings
accumulated by all of its validation rules; the suggestions list plays no part
in the formula. -/
theorem C8_consistency_formula (s : DecisionSession) :
    (validateLogic s).consistency
      = max 0 (1 - ((validateLogic s).errors.length : ℚ) * (1/5)
                 - ((validateLogic s).warnings.length : ℚ) * (1/20)) := rfl

/-! ## Claims C3, C9, C10: the recommendation gate -/

/-- The failing branch of `makeRecommendation`'s confidence gate: when the
analysis succeeds, the top option resolves, and the confidence is below the
applied threshold, the call returns the confidence-too-low error and leaves
the session untouched. -/
lemma makeRecommendation_of_lt (s : DecisionSession) (p : Option ℚ) (now : ℕ)
    (a : DecisionAnalysis) (o : DecisionOption)
    (ha : analyzeDecision s = .ok a)
    (hfind : s.options.find? (fun o' => o'.name == a.topOption) = some o)
    (hlt : a.confidence < ((jsOrQ p (3/10) : ℚ) : ℝ)) :
    makeRecommendation s p now = (s, .error .confidenceTooLow) := by
  unfold makeRecommendation
  rw [ha]
  simp only [hfind]
  rw [if_pos hlt]

/-- The passing branch of `makeRecommendation`'s confidence gate: the session
is marked completed, the recommended option's name is stored and `updatedAt`
is overwritten — with no inspection of the session's previous status. -/
lemma makeRecommendation_of_ge (s : DecisionSession) (p : Option ℚ) (now : ℕ)
    (a : DecisionAnalysis) (o : DecisionOption)
    (ha : analyzeDecision s = .ok a)
    (hfind : s.options.find? (fun o' => o'.name == a.topOption) = some o)
    (hge : ¬ a.confidence < ((jsOrQ p (3/10) : ℚ) : ℝ)) :
    makeRecommendation s p now
      = ({ s with status := .completed, recommendation := some o.name, updatedAt := now },
         .ok { recommendedOption := o.name, confidence := a.confidence }) := by
  unfold makeRecommendation
  rw [ha]
  simp only [hfind]
  rw [if_neg hge]

/-- C3: when the computed analysis confidence is below the caller-supplied
`minConfidence` threshold (default 0.3), `make_recommendation` returns the
confidence-too-low error and the session is unchanged — not marked completed
and with no recommendation stored. -/
theorem C3_confidence_gate (s : DecisionSession) (p : Option ℚ) (now : ℕ)
    (a : DecisionAnalysis) (o : DecisionOption)
    (ha : analyzeDecision s = .ok a)
    (hfind : s.options.find? (fun o' => o'.name == a.topOption) = some o)
    (hlt : a.confidence < ((jsOrQ p (3/10) : ℚ) : ℝ)) :
    makeRecommendation s p now = (s, .error .confidenceTooLow) :=
  makeRecommendation_of_lt s p now a o ha hfind hlt

/-- C9: passing `minConfidence = 0` explicitly still applies the 0.3 default
(JavaScript `params.minConfidence || 0.3` treats 0 as falsy), so a session
whose confidence lies strictly between 0 and 0.3 is rejected even though the
caller asked for a zero threshold. -/
theorem C9_zero_threshold_falls_back (s : DecisionSession) (now : ℕ)
    (a : DecisionAnalysis) (o : DecisionOption)
    (ha : analyzeDecision s = .ok a)
    (hfind : s.options.find? (fun o' => o'.name == a.topOption) = some o)
    (hpos : 0 < a.confidence) (hlt : a.confidence < 3/10) :
    jsOrQ (some 0) (3/10) = 3/10 ∧
    makeRecommendation s (some 0) now = (s, .error .confidenceTooLow) := by
  refine ⟨rfl, ?_⟩
  apply makeRecommendation_of_lt s (some 0) now a o ha hfind
  have : ((jsOrQ (some 0) (3/10) : ℚ) : ℝ) = 3/10 := by
    norm_num [jsOrQ]
  rw [this]
  exact hlt

/-- C10: neither `analyze_decision` nor `make_recommendation` checks the
session's status, so on an already-completed session that still has
evaluations and sufficient confidence, `make_recommendation` succeeds again,
overwriting the stored recommendation and `updatedAt`. -/
theorem C10_no_status_check (s : DecisionSession) (p : Option ℚ) (now : ℕ)
    (a : DecisionAnalysis) (o : DecisionOption)
    (hdone : s.status = .completed)
    (ha : analyzeDecision s = .ok a)
    (hfind : s.options.find? (fun o' => o'.name == a.topOption) = some o)
    (hge : ¬ a.confidence < ((jsOrQ p (3/10) : ℚ) : ℝ)) :
    makeRecommendation s p now
      = ({ s with status := .completed, recommendation := some o.name, updatedAt := now },
         .ok { recommendedOption := o.name, confidence := a.confidence }) :=
  makeRecommendation_of_ge s p now a o ha hfind hge

/-! ## Concrete confidence computations -/

/-- A bare evaluation carrying only an option id and a weighted score, as used
in the concrete confidence scenarios. -/
def mkEval (oid : String) (w : ℚ) : Evaluation :=
  { optionId := oid, scores := [], overallScore := w, weightedScore := w, timestamp := 0 }

/-- Standard deviation of a descending pair. -/
lemma stdDevR_pair (x y : ℝ) (h : y ≤ x) : stdDevR [x, y] = (x - y) / 2 := by
  have hv : varianceR [x, y] = ((x - y) / 2) ^ 2 := by
    unfold varianceR meanR
    simp only [List.sum_cons, List.sum_nil, List.map_cons, List.map_nil,
      List.length_cons, List.length_nil]
    push_cast
    ring
  unfold stdDevR
  rw [hv, Real.sqrt_sq (by linarith)]

/-- Closed form of `calculateConfidence` on a two-evaluation session with the
first weighted score at least the second, exposing the falsy-zero fallback on
the second-best score. -/
lemma calculateConfidence_pair (oa ob : String) (a b : ℚ) (hb : b ≤ a) :
    calculateConfidence [mkEval oa a, mkEval ob b]
      = min 1 ((max 0 (1 - ((a : ℝ) - b) / 10)
          + (if b = 0 then 0 else ((a : ℝ) - b) / 10)) / 2) := by
  simp only [calculateConfidence]
  rw [if_neg (by simp)]
  have h1 : List.map (fun e => e.weightedScore) [mkEval oa a, mkEval ob b] = [a, b] := rfl
  rw [h1]
  have h2 : List.map (Rat.cast : ℚ → ℝ) [a, b] = [(a : ℝ), (b : ℝ)] := rfl
  rw [h2]
  have h3 : sortDesc [a, b] = [a, b] := by
    simp [sortDesc, insertDesc, if_pos hb]
  rw [h3]
  simp only [List.headD_cons]
  have h5 : [a, b][1]? = some b := rfl
  rw [h5]
  simp only [Option.getD_some]
  rw [stdDevR_pair _ _ (by exact_mod_cast hb)]
  by_cases hb0 : b = 0
  · subst hb0
    rw [if_pos rfl, if_pos rfl]
    push_cast
    ring_nf
  · rw [if_neg hb0, if_neg hb0]
    push_cast
    ring_nf

/-- Evaluates `min 1 ((max 0 x + y)/2)` when both clamps are inactive. -/
lemma min_max_eval (x y : ℝ) (hx : 0 ≤ x) (hxy : x + y ≤ 2) :
    min 1 ((max 0 x + y) / 2) = (x + y) / 2 := by
  rw [max_eq_right hx, min_eq_right (by linarith)]

/-- `calculateConfidence` on weighted scores `[8, 6]` is `0.5`. -/
lemma calculateConfidence_86 :
    calculateConfidence [mkEval "A" 8, mkEval "B" 6] = 1/2 := by
  rw [calculateConfidence_pair "A" "B" 8 6 (by norm_num),
    if_neg (by norm_num), min_max_eval _ _ (by norm_num) (by norm_num)]
  norm_num

/-- `calculateConfidence` on weighted scores `[5, 0]` is `0.25`: the zero
second-best score zeroes the separation term. -/
lemma calculateConfidence_50 :
    calculateConfidence [mkEval "A" 5, mkEval "B" 0] = 1/4 := by
  rw [calculateConfidence_pair "A" "B" 5 0 (by norm_num),
    if_pos rfl, min_max_eval _ _ (by norm_num) (by norm_num)]
  norm_num

/-- `calculateConfidence` on weighted scores `[4, 0]` is `0.3`. -/
lemma calculateConfidence_40 :
    calculateConfidence [mkEval "A" 4, mkEval "B" 0] = 3/10 := by
  rw [calculateConfidence_pair "A" "B" 4 0 (by norm_num),
    if_pos rfl, min_max_eval _ _ (by norm_num) (by norm_num)]
  norm_num

/-- `calculateConfidence` on weighted scores `[0, 0]` is `0.5`. -/
lemma calculateConfidence_00 :
    calculateConfidence [mkEval "A" 0, mkEval "B" 0] = 1/2 := by
  rw [calculateConfidence_pair "A" "B" 0 0 le_rfl,
    if_pos rfl, min_max_eval _ _ (by norm_num) (by norm_num)]
  norm_num

/-- A concrete two-option session with given evaluations and status. -/
def wSessionOf (evals : List Evaluation) (st : SessionStatus) : DecisionSession :=
  { id := "w", context := "pick a vendor", criteria := [], options := [exOptA, exOptB],
    evaluations := evals, status := st, recommendation := none,
    createdAt := 0, updatedAt := 0 }

/-- `analyzeDecision` on the concrete two-evaluation session picks option "A"
whenever its weighted score is not below option "B"'s. -/
lemma analyzeDecision_wSessionOf (a b : ℚ) (st : SessionStatus) (hltb : ¬ a < b) :
    analyzeDecision (wSessionOf [mkEval "A" a, mkEval "B" b] st)
      = .ok { topOption := "Option A"
              confidence := calculateConfidence [mkEval "A" a, mkEval "B" b] } := by
  simp only [analyzeDecision, wSessionOf]
  rw [show topEvaluation (mkEval "A" a) [mkEval "B" b] = mkEval "A" a from by
    unfold topEvaluation
    simp [mkEval, if_neg hltb]]
  rw [show (mkEval "A" a).optionId = "A" from rfl]
  rw [show [exOptA, exOptB].find? (fun o => o.id == "A") = some exOptA from by decide]
  rfl

/-- C3 witness: a session whose computed confidence is `0.5` (weighted scores
8 and 6), gated at `minConfidence = 0.9`, is rejected and unchanged. -/
theorem C3_confidence_gate_witness :
    makeRecommendation (wSessionOf [mkEval "A" 8, mkEval "B" 6] .active) (some (9/10)) 5
      = (wSessionOf [mkEval "A" 8, mkEval "B" 6] .active, .error .confidenceTooLow) := by
  apply C3_confidence_gate _ _ _
    { topOption := "Option A", confidence := calculateConfidence [mkEval "A" 8, mkEval "B" 6] }
    exOptA (analyzeDecision_wSessionOf 8 6 .active (by norm_num)) (by decide)
  show calculateConfidence [mkEval "A" 8, mkEval "B" 6] < ((jsOrQ (some (9/10)) (3/10) : ℚ) : ℝ)
  rw [calculateConfidence_86]
  norm_num [jsOrQ]

/-- C9 witness: a session whose computed confidence is `0.25` (weighted scores
5 and 0) is rejected when the caller explicitly passes `minConfidence = 0`. -/
theorem C9_zero_threshold_falls_back_witness :
    jsOrQ (some 0) (3/10) = 3/10 ∧
    makeRecommendation (wSessionOf [mkEval "A" 5, mkEval "B" 0] .active) (some 0) 5
      = (wSessionOf [mkEval "A" 5, mkEval "B" 0] .active, .error .confidenceTooLow) := by
  apply C9_zero_threshold_falls_back _ _
    { topOption := "Option A", confidence := calculateConfidence [mkEval "A" 5, mkEval "B" 0] }
    exOptA (analyzeDecision_wSessionOf 5 0 .active (by norm_num)) (by decide)
  · show (0 : ℝ) < calculateConfidence [mkEval "A" 5, mkEval "B" 0]
    rw [calculateConfidence_50]
    norm_num
  · show calculateConfidence [mkEval "A" 5, mkEval "B" 0] < 3/10
    rw [calculateConfidence_50]
    norm_num

/-- C10 witness: `make_recommendation` on an already-completed session with
confidence `0.5` and the default threshold succeeds again, overwriting the
recommendation and `updatedAt`. -/
theorem C10_no_status_check_witness :
    makeRecommendation (wSessionOf [mkEval "A" 8, mkEval "B" 6] .completed) none 9
      = ({ wSessionOf [mkEval "A" 8, mkEval "B" 6] .completed with
            status := .completed, recommendation := some exOptA.name, updatedAt := 9 },
         .ok { recommendedOption := exOptA.name
               confidence := calculateConfidence [mkEval "A" 8, mkEval "B" 6] }) := by
  apply C10_no_status_check _ _ _
    { topOption := "Option A", confidence := calculateConfidence [mkEval "A" 8, mkEval "B" 6] }
    exOptA rfl (analyzeDecision_wSessionOf 8 6 .completed (by norm_num)) (by decide)
  show ¬ calculateConfidence [mkEval "A" 8, mkEval "B" 6] < ((jsOrQ none (3/10) : ℚ) : ℝ)
  rw [calculateConfidence_86]
  norm_num [jsOrQ]

/-! ## Claim C6: ranking picks the first maximum -/

/-- `e` dominates every evaluation of `l` (its weighted score is maximal). -/
def isTopScore (l : List Evaluation) (e : Evaluation) : Bool :=
  l.all fun x => x.weightedScore ≤ e.weightedScore

/-- Spec-side ranking: the first evaluation of the list whose weighted score
is maximal ("ties broken by first-encountered order"). -/
def specTopEvaluation (l : List Evaluation) : Option Evaluation :=
  l.find? (isTopScore l)

/-- `find?` only depends on the predicate's values on the list. -/
lemma find?_congr_list {α : Type} (p q : α → Bool) :
    ∀ l : List α, (∀ x ∈ l, p x = q x) → l.find? p = l.find? q
  | [], _ => rfl
  | a :: t, h => by
    rw [List.find?_cons, List.find?_cons, h a (List.mem_cons_self a t)]
    cases hq : q a
    · exact find?_congr_list p q t fun x hx => h x (List.mem_cons_of_mem a hx)
    · rfl

/-- `isTopScore` agrees on two lists when each dominates the other. -/
lemma isTopScore_congr (L M : List Evaluation) (x : Evaluation)
    (h : ∀ z ∈ L, ∃ w ∈ M, z.weightedScore ≤ w.weightedScore)
    (h' : ∀ z ∈ M, ∃ w ∈ L, z.weightedScore ≤ w.weightedScore) :
    isTopScore L x = isTopScore M x := by
  cases hM : isTopScore M x
  · refine Bool.eq_false_iff.mpr fun hL => ?_
    rw [isTopScore, List.all_eq_true] at hL
    have : isTopScore M x = true := by
      rw [isTopScore, List.all_eq_true]
      intro z hz
      obtain ⟨w, hw, hzw⟩ := h' z hz
      exact decide_eq_true (le_trans hzw (of_decide_eq_true (hL w hw)))
    rw [hM] at this
    cases this
  · rw [isTopScore, List.all_eq_true] at hM ⊢
    intro z hz
    obtain ⟨w, hw, hzw⟩ := h z hz
    exact decide_eq_true (le_trans hzw (of_decide_eq_true (hM w hw)))

/-- The `reduce`-style fold of `analyzeDecision` computes exactly the first
evaluation attaining the maximal weighted score. -/
lemma topEvaluation_find? : ∀ (rest : List Evaluation) (e : Evaluation),
    (e :: rest).find? (isTopScore (e :: rest)) = some (topEvaluation e rest)
  | [], e => by
    simp [isTopScore, topEvaluation, List.find?]
  | y :: t, e => by
    have hstep : topEvaluation e (y :: t)
        = topEvaluation (if e.weightedScore < y.weightedScore then y else e) t := rfl
    by_cases hlt : e.weightedScore < y.weightedScore
    · have h1 : isTopScore (e :: y :: t) e = false := by
        refine Bool.eq_false_iff.mpr fun hall => ?_
        rw [isTopScore, List.all_eq_true] at hall
        exact absurd (of_decide_eq_true (hall y (by simp))) (not_le.mpr hlt)
      rw [List.find?_cons_of_neg _ (by simp [h1]), hstep, if_pos hlt]
      rw [find?_congr_list (isTopScore (e :: y :: t)) (isTopScore (y :: t)) (y :: t)
        (fun x _ => isTopScore_congr _ _ x
          (by intro z hz
              rcases List.mem_cons.mp hz with rfl | hz'
              · exact ⟨y, List.mem_cons_self y t, le_of_lt hlt⟩
              · exact ⟨z, hz', le_rfl⟩)
          (fun z hz => ⟨z, List.mem_cons_of_mem e hz, le_rfl⟩))]
      exact topEvaluation_find? t y
    · have hyle : y.weightedScore ≤ e.weightedScore := not_lt.mp hlt
      rw [hstep, if_neg hlt]
      have hcongr : ∀ x ∈ e :: t, isTopScore (e :: y :: t) x = isTopScore (e :: t) x := by
        intro x _
        refine isTopScore_congr _ _ x ?_ ?_
        · intro z hz
          rcases List.mem_cons.mp hz with rfl | hz'
          · exact ⟨z, List.mem_cons_self z t, le_rfl⟩
          rcases List.mem_cons.mp hz' with rfl | hz''
          · exact ⟨e, List.mem_cons_self e t, hyle⟩
          · exact ⟨z, List.mem_cons_of_mem e hz'', le_rfl⟩
        · intro z hz
          rcases List.mem_cons.mp hz with rfl | hz'
          · exact ⟨z, List.mem_cons_self z (y :: t), le_rfl⟩
          · exact ⟨z, List.mem_cons_of_mem e (List.mem_cons_of_mem y hz'), le_rfl⟩
      have IH := topEvaluation_find? t e
      cases he : isTopScore (e :: y :: t) e
      · -- e is not a global top: neither is y, and the search continues in t
        have hey : isTopScore (e :: t) e = false := by
          rw [hcongr e (List.mem_cons_self e t)] at he
          exact he
        have hy : isTopScore (e :: y :: t) y = false := by
          refine Bool.eq_false_iff.mpr fun hall => ?_
          rw [isTopScore, List.all_eq_true] at hall
          have hey' : isTopScore (e :: y :: t) e = true := by
            rw [isTopScore, List.all_eq_true]
            intro z hz
            exact decide_eq_true
              (le_trans (of_decide_eq_true (hall z hz)) hyle)
          rw [he] at hey'
          cases hey'
        rw [List.find?_cons_of_neg _ (by simp [he]),
          List.find?_cons_of_neg _ (by simp [hy])]
        rw [List.find?_cons_of_neg _ (by simp [hey])] at IH
        rw [← IH]
        apply find?_congr_list
        intro x hx
        exact hcongr x (List.mem_cons_of_mem e hx)
      · -- e is a global top: the fold also returns e
        have he' : isTopScore (e :: t) e = true := by
          rw [← hcongr e (List.mem_cons_self e t)]
          exact he
        rw [List.find?_cons_of_pos _ he'] at IH
        rw [List.find?_cons_of_pos _ he]
        exact IH

/-- C6: `analyze_decision` reports as `topOption` the name of the option whose
evaluation is the first one attaining the maximum weighted score; in
particular, with tied options the one evaluated first wins. -/
theorem C6_top_option_first_max (s : DecisionSession) (tv : Evaluation) (o : DecisionOption)
    (htv : specTopEvaluation s.evaluations = some tv)
    (hfind : s.options.find? (fun o' => o'.id == tv.optionId) = some o) :
    ∃ a : DecisionAnalysis, analyzeDecision s = .ok a ∧ a.topOption = o.name := by
  obtain ⟨sid, ctx, crit, opts, evals, st, rec, ca, ua⟩ := s
  rcases evals with _ | ⟨e, rest⟩
  · exact absurd htv (by simp [specTopEvaluation, List.find?])
  · dsimp only at htv hfind ⊢
    rw [specTopEvaluation, topEvaluation_find? rest e] at htv
    have htv' := Option.some.inj htv
    refine ⟨{ topOption := o.name, confidence := calculateConfidence (e :: rest) }, ?_, rfl⟩
    show (match opts.find? (fun o' => o'.id == (topEvaluation e rest).optionId) with
          | none => (Except.error AnalyzeErr.topOptionNotFound :
              Except AnalyzeErr DecisionAnalysis)
          | some topOption =>
            Except.ok { topOption := topOption.name
                        confidence := calculateConfidence (e :: rest) }) = _
    rw [htv', hfind]

/-- C6 witness: with two options tied at weighted score 6, the option
evaluated first ("Option A") is reported as `topOption`. -/
theorem C6_top_option_first_max_witness :
    ∃ a : DecisionAnalysis,
      analyzeDecision (wSessionOf [mkEval "A" 6, mkEval "B" 6] .active) = .ok a ∧
      a.topOption = exOptA.name :=
  C6_top_option_first_max (wSessionOf [mkEval "A" 6, mkEval "B" 6] .active)
    (mkEval "A" 6) exOptA (by decide) (by decide)

/-! ## Claim C4: dispersion algebra for the confidence monotonicity -/

/-- A sum of mapped squares is nonnegative. -/
lemma sum_map_sq_nonneg (l : List ℝ) (f : ℝ → ℝ) :
    0 ≤ (l.map fun x => (f x) ^ 2).sum := by
  apply List.sum_nonneg
  intro x hx
  obtain ⟨y, _, rfl⟩ := List.mem_map.mp hx
  exact sq_nonneg _

/-- The population variance is nonnegative. -/
lemma varianceR_nonneg (l : List ℝ) : 0 ≤ varianceR l := by
  unfold varianceR
  exact div_nonneg (sum_map_sq_nonneg l _) (Nat.cast_nonneg _)

/-- Expansion of a sum of shifted squares. -/
lemma sum_sq_shift (l : List ℝ) (c : ℝ) :
    (l.map fun x => (x - c) ^ 2).sum
      = (l.map fun x => x ^ 2).sum - 2 * c * l.sum + l.length * c ^ 2 := by
  induction l with
  | nil => simp
  | cons a t ih =>
    simp only [List.map_cons, List.sum_cons, List.length_cons, ih]
    push_cast
    ring

/-- Sum over a list of constant shifts. -/
lemma sum_map_sub (l : List ℝ) (c : ℝ) :
    (l.map fun x => x - c).sum = l.sum - l.length * c := by
  induction l with
  | nil => simp
  | cons a t ih =>
    simp only [List.map_cons, List.sum_cons, List.length_cons, ih]
    push_cast
    ring

/-- Cauchy–Schwarz for lists: `(Σx)² ≤ n·Σx²`. -/
lemma sq_sum_le_length_mul_sum_sq (l : List ℝ) :
    l.sum ^ 2 ≤ l.length * (l.map fun x => x ^ 2).sum := by
  induction l with
  | nil => simp
  | cons a t ih =>
    have hQ : 0 ≤ (t.map fun x => x ^ 2).sum := sum_map_sq_nonneg t _
    simp only [List.map_cons, List.sum_cons, List.length_cons]
    rcases eq_or_ne t [] with rfl | hne
    · simp
    · have hm1 : (1 : ℝ) ≤ t.length := by
        have := List.length_pos.mpr hne
        exact_mod_cast this
      push_cast
      nlinarith [sq_nonneg ((t.length : ℝ) * a - t.sum), ih, hQ, hm1]

/-- Closed form of the variance of a cons. -/
lemma varianceR_cons (t : ℝ) (xs : List ℝ) :
    varianceR (t :: xs)
      = ((xs.map fun x => x ^ 2).sum + t ^ 2) / ((xs.length : ℝ) + 1)
          - ((xs.sum + t) / ((xs.length : ℝ) + 1)) ^ 2 := by
  have hn : ((xs.length : ℝ) + 1) ≠ 0 := by positivity
  unfold varianceR meanR
  simp only [List.sum_cons, List.length_cons, List.map_cons]
  rw [sum_sq_shift]
  push_cast
  field_simp
  ring

/-- The mean of a cons. -/
lemma meanR_cons (t : ℝ) (xs : List ℝ) :
    meanR (t :: xs) = (t + xs.sum) / ((xs.length : ℝ) + 1) := by
  unfold meanR
  simp only [List.sum_cons, List.length_cons]
  push_cast
  ring_nf

/-- Lower bound on the variance by the head's squared deviation: the deviations
sum to zero, so the rest compensates the head (via Cauchy–Schwarz). -/
lemma variance_lower (t : ℝ) (xs : List ℝ) :
    (t - meanR (t :: xs)) ^ 2 ≤ (xs.length : ℝ) * varianceR (t :: xs) := by
  rcases eq_or_ne xs [] with rfl | hne
  · simp [meanR, varianceR]
  · have hm1 : (1 : ℝ) ≤ (xs.length : ℝ) := by
      have := List.length_pos.mpr hne
      exact_mod_cast this
    have hcs := sq_sum_le_length_mul_sum_sq xs
    rw [varianceR_cons, meanR_cons]
    have hn : (0 : ℝ) < (xs.length : ℝ) + 1 := by positivity
    have expand1 : (t - (t + xs.sum) / ((xs.length : ℝ) + 1)) ^ 2
        = (((xs.length : ℝ) * t - xs.sum) ^ 2) / (((xs.length : ℝ) + 1) ^ 2) := by
      field_simp
      ring
    have expand2 : (xs.length : ℝ)
          * (((xs.map fun x => x ^ 2).sum + t ^ 2) / ((xs.length : ℝ) + 1)
              - ((xs.sum + t) / ((xs.length : ℝ) + 1)) ^ 2)
        = ((xs.length : ℝ) * (((xs.map fun x => x ^ 2).sum + t ^ 2) * ((xs.length : ℝ) + 1)
              - (xs.sum + t) ^ 2)) / (((xs.length : ℝ) + 1) ^ 2) := by
      field_simp
      ring
    rw [expand1, expand2, div_le_div_iff_of_pos_right (by positivity)]
    nlinarith [hcs, hm1]

/-- Exact effect on the variance of raising the head by `d`. -/
lemma variance_shift (t d : ℝ) (xs : List ℝ) :
    varianceR ((t + d) :: xs)
      = varianceR (t :: xs) + 2 * d * (t - meanR (t :: xs)) / ((xs.length : ℝ) + 1)
          + d ^ 2 * (xs.length : ℝ) / (((xs.length : ℝ) + 1) ^ 2) := by
  rw [varianceR_cons, varianceR_cons, meanR_cons]
  have hn : ((xs.length : ℝ) + 1) ≠ 0 := by positivity
  field_simp
  ring

/-- Raising the head of a score list by `d ≥ 0` raises the standard deviation
by at most `d/2`. -/
lemma stdDevR_shift (t d : ℝ) (xs : List ℝ) (hd : 0 ≤ d) :
    stdDevR ((t + d) :: xs) ≤ stdDevR (t :: xs) + d / 2 := by
  have hv1 : 0 ≤ varianceR (t :: xs) := varianceR_nonneg _
  have hsd1 : 0 ≤ stdDevR (t :: xs) := Real.sqrt_nonneg _
  have hsq : stdDevR (t :: xs) ^ 2 = varianceR (t :: xs) := Real.sq_sqrt hv1
  have hm0 : (0 : ℝ) ≤ (xs.length : ℝ) := Nat.cast_nonneg _
  have hterm1 : 2 * d * (t - meanR (t :: xs)) / ((xs.length : ℝ) + 1)
      ≤ d * stdDevR (t :: xs) := by
    rcases le_or_lt (t - meanR (t :: xs)) 0 with hneg | hpos
    · have h1 : 2 * d * (t - meanR (t :: xs)) / ((xs.length : ℝ) + 1) ≤ 0 := by
        apply div_nonpos_of_nonpos_of_nonneg
        · nlinarith
        · positivity
      exact le_trans h1 (mul_nonneg hd hsd1)
    · have hL4 := variance_lower t xs
      have h2 : (2 * (t - meanR (t :: xs)) / ((xs.length : ℝ) + 1)) ^ 2
          ≤ varianceR (t :: xs) := by
        rw [div_pow, div_le_iff₀ (by positivity)]
        nlinarith [hL4, hv1, hm0, sq_nonneg ((xs.length : ℝ) - 1)]
      have h3 : 2 * (t - meanR (t :: xs)) / ((xs.length : ℝ) + 1) ≤ stdDevR (t :: xs) := by
        calc 2 * (t - meanR (t :: xs)) / ((xs.length : ℝ) + 1)
            = Real.sqrt ((2 * (t - meanR (t :: xs)) / ((xs.length : ℝ) + 1)) ^ 2) :=
              (Real.sqrt_sq (by positivity)).symm
          _ ≤ Real.sqrt (varianceR (t :: xs)) := Real.sqrt_le_sqrt h2
          _ = stdDevR (t :: xs) := rfl
      calc 2 * d * (t - meanR (t :: xs)) / ((xs.length : ℝ) + 1)
          = d * (2 * (t - meanR (t :: xs)) / ((xs.length : ℝ) + 1)) := by ring
        _ ≤ d * stdDevR (t :: xs) := mul_le_mul_of_nonneg_left h3 hd
  have hterm2 : d ^ 2 * (xs.length : ℝ) / (((xs.length : ℝ) + 1) ^ 2) ≤ d ^ 2 / 4 := by
    rw [div_le_div_iff₀ (by positivity) (by norm_num)]
    nlinarith [sq_nonneg ((xs.length : ℝ) - 1), sq_nonneg d]
  have hmain : varianceR ((t + d) :: xs) ≤ (stdDevR (t :: xs) + d / 2) ^ 2 := by
    rw [variance_shift t d xs]
    nlinarith [hsq, hterm1, hterm2]
  calc stdDevR ((t + d) :: xs)
      = Real.sqrt (varianceR ((t + d) :: xs)) := rfl
    _ ≤ Real.sqrt ((stdDevR (t :: xs) + d / 2) ^ 2) := Real.sqrt_le_sqrt hmain
    _ = stdDevR (t :: xs) + d / 2 := Real.sqrt_sq (by positivity)

/-- Subtracting a nonnegative constant commutes with the zero clamp up to
inequality. -/
lemma max_zero_sub_le (x c : ℝ) (hc : 0 ≤ c) : max 0 x - c ≤ max 0 (x - c) := by
  rw [sub_le_iff_le_add]
  apply max_le
  · have := le_max_left (0 : ℝ) (x - c)
    linarith
  · have := le_max_right (0 : ℝ) (x - c)
    linarith

/-- `insertDesc` never produces the empty list. -/
lemma insertDesc_ne_nil (a : ℚ) (l : List ℚ) : insertDesc a l ≠ [] := by
  cases l with
  | nil => simp [insertDesc]
  | cons b t =>
    simp only [insertDesc]
    split <;> simp

/-- The head of a descending sort is a maximum of the list. -/
lemma sortDesc_head_max : ∀ (l : List ℚ) (h : ℚ) (tl : List ℚ),
    sortDesc l = h :: tl → h ∈ l ∧ ∀ x ∈ l, x ≤ h
  | [], h, tl => by intro heq; cases heq
  | a :: t, h, tl => by
    intro heq
    rw [show sortDesc (a :: t) = insertDesc a (sortDesc t) from rfl] at heq
    cases hst : sortDesc t with
    | nil =>
      have ht : t = [] := by
        cases t with
        | nil => rfl
        | cons b tb => exact absurd hst (insertDesc_ne_nil b (sortDesc tb))
      subst ht
      rw [hst] at heq
      simp only [insertDesc] at heq
      cases heq
      exact ⟨List.mem_singleton.mpr rfl, by simp⟩
    | cons b tb =>
      obtain ⟨hbmem, hbmax⟩ := sortDesc_head_max t b tb hst
      rw [hst] at heq
      simp only [insertDesc] at heq
      by_cases hba : b ≤ a
      · rw [if_pos hba] at heq
        obtain ⟨rfl, -⟩ := List.cons.inj heq
        refine ⟨List.mem_cons_self a t, ?_⟩
        intro x hx
        rcases List.mem_cons.mp hx with rfl | hx'
        · exact le_rfl
        · exact le_trans (hbmax x hx') hba
      · rw [if_neg hba] at heq
        obtain ⟨rfl, -⟩ := List.cons.inj heq
        refine ⟨List.mem_cons_of_mem a hbmem, ?_⟩
        intro x hx
        rcases List.mem_cons.mp hx with rfl | hx'
        · exact le_of_lt (not_le.mp hba)
        · exact hbmax x hx'

/-- Sorting a list headed by a maximal element keeps the head in place. -/
lemma sortDesc_cons_of_max (t : ℚ) (l : List ℚ) (h : ∀ x ∈ l, x ≤ t) :
    sortDesc (t :: l) = t :: sortDesc l := by
  show insertDesc t (sortDesc l) = t :: sortDesc l
  cases hst : sortDesc l with
  | nil => simp [insertDesc]
  | cons b tb =>
    have hb := (sortDesc_head_max l b tb hst).1
    simp [insertDesc, if_pos (h b hb)]

/-- Confidence monotonicity on the gap, for a positive second-best score:
raising the top weighted score (with the other evaluations unchanged) cannot
decrease `calculateConfidence`. -/
lemma calculateConfidence_mono (e₁ e₂ : Evaluation) (rest : List Evaluation)
    (hne : rest ≠ [])
    (h12 : e₁.weightedScore ≤ e₂.weightedScore)
    (hmax : ∀ e ∈ rest, e.weightedScore ≤ e₁.weightedScore)
    (hpos : ∃ e ∈ rest, 0 < e.weightedScore) :
    calculateConfidence (e₁ :: rest) ≤ calculateConfidence (e₂ :: rest) := by
  have hlenpos : 0 < rest.length := List.length_pos.mpr hne
  have hlen1 : ¬ (e₁ :: rest).length < 2 := by
    simp only [List.length_cons]
    omega
  have hlen2 : ¬ (e₂ :: rest).length < 2 := by
    simp only [List.length_cons]
    omega
  simp only [calculateConfidence]
  rw [if_neg hlen1, if_neg hlen2]
  simp only [List.map_cons]
  set t₁ := e₁.weightedScore with ht₁
  set t₂ := e₂.weightedScore with ht₂
  set restQ := rest.map (fun e => e.weightedScore) with hrq
  have hmaxQ : ∀ x ∈ restQ, x ≤ t₁ := by
    intro x hx
    obtain ⟨e, he, rfl⟩ := List.mem_map.mp hx
    exact hmax e he
  have hmaxQ2 : ∀ x ∈ restQ, x ≤ t₂ := fun x hx => le_trans (hmaxQ x hx) h12
  rw [sortDesc_cons_of_max t₁ restQ hmaxQ, sortDesc_cons_of_max t₂ restQ hmaxQ2]
  have hrqne : restQ ≠ [] := by
    rw [hrq]
    simp [hne]
  obtain ⟨M, tl, hMtl⟩ : ∃ M tl, sortDesc restQ = M :: tl := by
    cases hst : sortDesc restQ with
    | nil =>
      exfalso
      apply hrqne
      cases hq : restQ with
      | nil => rfl
      | cons b tb =>
        rw [hq] at hst
        exact absurd hst (insertDesc_ne_nil b (sortDesc tb))
    | cons M tl => exact ⟨M, tl, rfl⟩
  obtain ⟨hMmem, hMmax⟩ := sortDesc_head_max restQ M tl hMtl
  have hMpos : 0 < M := by
    obtain ⟨e, he, hepos⟩ := hpos
    exact lt_of_lt_of_le hepos
      (hMmax e.weightedScore (by rw [hrq]; exact List.mem_map_of_mem _ he))
  rw [hMtl]
  simp only [List.headD_cons]
  rw [show (t₁ :: M :: tl)[1]? = some M from by
      simp [List.getElem?_cons_succ, List.getElem?_cons_zero],
    show (t₂ :: M :: tl)[1]? = some M from by
      simp [List.getElem?_cons_succ, List.getElem?_cons_zero]]
  simp only [Option.getD_some]
  rw [if_neg (ne_of_gt hMpos), if_neg (ne_of_gt hMpos)]
  set restR := restQ.map (Rat.cast : ℚ → ℝ) with hrr
  set d : ℝ := (t₂ : ℝ) - (t₁ : ℝ) with hd
  have hd0 : 0 ≤ d := by
    rw [hd]
    have : (t₁ : ℝ) ≤ (t₂ : ℝ) := by exact_mod_cast h12
    linarith
  have hcast2 : ((t₂ : ℚ) : ℝ) = (t₁ : ℝ) + d := by
    rw [hd]
    ring
  rw [hcast2]
  have hsd := stdDevR_shift (t₁ : ℝ) d restR hd0
  have hsep : ((t₂ - M : ℚ) : ℝ) / 10 = ((t₁ - M : ℚ) : ℝ) / 10 + d / 10 := by
    push_cast
    rw [hd]
    ring
  rw [hsep]
  have hc : max 0 (1 - stdDevR ((t₁ : ℝ) :: restR) / 5) - d / 10
      ≤ max 0 (1 - stdDevR (((t₁ : ℝ) + d) :: restR) / 5) := by
    calc max 0 (1 - stdDevR ((t₁ : ℝ) :: restR) / 5) - d / 10
        ≤ max 0 ((1 - stdDevR ((t₁ : ℝ) :: restR) / 5) - d / 10) :=
          max_zero_sub_le _ _ (by linarith)
      _ ≤ max 0 (1 - stdDevR (((t₁ : ℝ) + d) :: restR) / 5) := by
          apply max_le_max le_rfl
          linarith
  apply min_le_min le_rfl
  apply div_le_div_of_nonneg_right ?_ (by norm_num)
  linarith

/-- C4 counterexample to the claim as stated: raising the top weighted score
from 0 to 4 while the only other weighted score stays 0 *decreases* the
computed confidence from 0.5 to 0.3, because the JavaScript falsy check
`sortedScores[1] || topScore` treats the second-best score 0 as absent and
zeroes the separation term. -/
theorem C4_confidence_monotonicity_counterexample :
    ¬ (calculateConfidence [mkEval "A" 0, mkEval "B" 0]
        ≤ calculateConfidence [mkEval "A" 4, mkEval "B" 0]) := by
  rw [calculateConfidence_00, calculateConfidence_40]
  norm_num

/-- C4 (amended): for at least 2 evaluations, the confidence is non-decreasing
in the gap between the top and second-best weighted scores with all other
scores held equal, *provided the second-best weighted score is positive* (a
second-best score of exactly 0 is falsy in JavaScript and voids the
separation term); and with fewer than 2 evaluations the confidence is exactly
0.5. -/
theorem C4_confidence_monotonicity_amended :
    (∀ (e₁ e₂ : Evaluation) (rest : List Evaluation),
       rest ≠ [] →
       e₁.weightedScore ≤ e₂.weightedScore →
       (∀ e ∈ rest, e.weightedScore ≤ e₁.weightedScore) →
       (∃ e ∈ rest, 0 < e.weightedScore) →
       calculateConfidence (e₁ :: rest) ≤ calculateConfidence (e₂ :: rest)) ∧
    (∀ evals : List Evaluation, evals.length < 2 → calculateConfidence evals = 1/2) := by
  constructor
  · exact calculateConfidence_mono
  · intro evals h
    simp only [calculateConfidence]
    rw [if_pos h]
    norm_num

/-- C4 witness: raising the top weighted score from 6 to 8 with second-best 1
does not decrease the confidence, and a single-evaluation session has
confidence exactly 0.5. -/
theorem C4_confidence_monotonicity_amended_witness :
    calculateConfidence [mkEval "A" 6, mkEval "B" 1]
      ≤ calculateConfidence [mkEval "A" 8, mkEval "B" 1] ∧
    calculateConfidence [mkEval "A" 5] = 1/2 := by
  refine ⟨C4_confidence_monotonicity_amended.1 (mkEval "A" 6) (mkEval "A" 8) [mkEval "B" 1]
      (by simp) (by norm_num [mkEval]) ?_ ?_,
    C4_confidence_monotonicity_amended.2 [mkEval "A" 5] (by simp)⟩
  · intro e he
    rw [List.mem_singleton] at he
    subst he
    norm_num [mkEval]
  · exact ⟨mkEval "B" 1, List.mem_singleton.mpr rfl, by norm_num [mkEval]⟩

end DecisionMCP
